import Mathlib

/-!
Formal model of the VibeWorker agent engine, embedded shallowly from the
Python sources under `backend/`.  Each definition carries a reference to
the source function it translates.  Theorems at the end of the file settle
the frozen specification claims C1 through C10.

String-valued data is manipulated through executable `List Char` primitives
(`pyWords`, `pystripChars`, ...) that model the corresponding Python `str`
methods, so that every classifier and store operation evaluates by `decide`.
-/

namespace VibeWorker

/-- Risk classification for tool operations.
Source: `backend/security/config.py`, `class RiskLevel`. -/
inductive RiskLevel where
  | safe
  | warn
  | dangerous
  | blocked
deriving DecidableEq, Repr

/-- Numeric order of risk levels used by `_max_risk`.
Source: `backend/security/classifier.py`, `_max_risk` (the `order` dict). -/
def riskOrder : RiskLevel → Nat
  | .safe => 0
  | .warn => 1
  | .dangerous => 2
  | .blocked => 3

/-- Return the higher of two risk levels.
Source: `backend/security/classifier.py`, `_max_risk`. -/
def maxRisk (a b : RiskLevel) : RiskLevel :=
  if riskOrder b ≤ riskOrder a then a else b

/-- Substring test on character lists: does `needle` occur contiguously inside
`hay`?  Executable counterpart of Python's `in` operator on strings. -/
def charsInfix (needle hay : List Char) : Bool :=
  hay.tails.any (fun t => needle.isPrefixOf t)

/-- Lower-casing of a character list, modelling Python `str.lower` on the
ASCII inputs that occur in commands and code. -/
def pyLower (l : List Char) : List Char := l.map Char.toLower

/-- Helper for `pyWords`: accumulate the current word (reversed) while
scanning. -/
def pyWordsAux : List Char → List Char → List (List Char)
  | [], cur => if cur.isEmpty then [] else [cur.reverse]
  | c :: rest, cur =>
    if c.isWhitespace then
      if cur.isEmpty then pyWordsAux rest [] else cur.reverse :: pyWordsAux rest []
    else pyWordsAux rest (c :: cur)

/-- Whitespace splitting that drops empty fragments, modelling Python
`str.split()` with no argument. -/
def pyWords (l : List Char) : List (List Char) := pyWordsAux l []

/-- Strip leading whitespace, modelling Python `str.lstrip`. -/
def frontStrip (l : List Char) : List Char := l.dropWhile Char.isWhitespace

/-- Strip trailing whitespace, modelling Python `str.rstrip`. -/
def backStrip (l : List Char) : List Char :=
  (l.reverse.dropWhile Char.isWhitespace).reverse

/-- Strip whitespace from both ends, modelling Python `str.strip()`. -/
def pystripChars (l : List Char) : List Char := backStrip (frontStrip l)

/-- Split on a single separator character, keeping empty fragments, modelling
Python `str.split(sep)` with an explicit separator. -/
def splitOnChar (sep : Char) : List Char → List (List Char)
  | [] => [[]]
  | c :: rest =>
    let groups := splitOnChar sep rest
    if c = sep then [] :: groups
    else
      match groups with
      | [] => [[c]]
      | g :: gs => (c :: g) :: gs

/-- Commands that are always blocked.
Source: `backend/security/classifier.py`, `BLOCKED_COMMANDS`. -/
def blockedCommands : List (List Char) :=
  ["mkfs", "format", "dd"].map String.toList

/-- Prefix-based blocked commands.
Source: `backend/security/classifier.py`, `BLOCKED_PREFIXES`. -/
def blockedPrefixList : List (List Char) :=
  ["mkfs."].map String.toList

/-- Commands classified as dangerous.
Source: `backend/security/classifier.py`, `DANGEROUS_COMMANDS`. -/
def dangerousCommands : List (List Char) :=
  ["rm", "rmdir", "del", "rd",
   "curl", "wget", "invoke-webrequest",
   "pip", "pip3", "npm", "yarn",
   "chmod", "chown", "chattr",
   "kill", "killall", "pkill", "taskkill",
   "powershell", "pwsh", "cmd",
   "sudo", "su", "runas",
   "mv", "move", "ren", "rename",
   "shutdown", "reboot", "halt", "init",
   "net", "netsh", "iptables",
   "reg", "regedit",
   "docker", "kubectl"].map String.toList

/-- Commands classified as safe.
Source: `backend/security/classifier.py`, `SAFE_COMMANDS`. -/
def safeCommands : List (List Char) :=
  ["ls", "dir", "cat", "type", "head", "tail", "less", "more",
   "pwd", "cd", "echo", "printf",
   "grep", "rg", "find", "which", "where", "whereis",
   "git", "wc", "sort", "uniq", "diff", "comm",
   "date", "cal", "uptime", "whoami", "hostname",
   "python", "python3", "node", "java",
   "tree", "file", "stat", "du", "df",
   "env", "printenv", "set",
   "basename", "dirname", "realpath",
   "tar", "zip", "unzip", "gzip", "gunzip",
   "sed", "awk", "cut", "tr", "tee",
   "touch", "mkdir",
   "test", "true", "false",
   "man", "help", "info"].map String.toList

/-- Git subcommands considered dangerous.
Source: `backend/security/classifier.py`, `DANGEROUS_GIT_SUBCOMMANDS`. -/
def dangerousGitSubcommands : List (List Char) :=
  ["push", "reset", "clean", "rebase", "merge", "branch", "checkout"].map String.toList

/-- Base name of a path: the component after the last `/`.  Models Python
`Path(tokens[0]).name` for POSIX-style paths. -/
def pathBaseName (s : List Char) : List Char :=
  (splitOnChar '/' s).getLastD s

/-- Classify a single command (no pipes/chains).
Source: `backend/security/classifier.py`, `_classify_single_command`. -/
def classifySingleCommand (tokens : List (List Char)) : RiskLevel :=
  match tokens with
  | [] => .safe
  | t0 :: rest =>
    let baseCmd := pyLower (pathBaseName t0)
    if blockedCommands.contains baseCmd then .blocked
    else if blockedPrefixList.any (fun p => p.isPrefixOf baseCmd) then .blocked
    else if dangerousCommands.contains baseCmd then
      if baseCmd = "rm".toList ∨ baseCmd = "del".toList then
        let flags := rest.filter (fun t => "-".toList.isPrefixOf t)
        let hasRecursive := flags.any (fun f => (pyLower f).contains 'r')
        let hasForce := flags.any (fun f => (pyLower f).contains 'f')
        if hasRecursive ∧ hasForce then .dangerous
        else if hasRecursive ∨ hasForce then .dangerous
        else .warn
      else .dangerous
    else if baseCmd = "git".toList ∧ rest.length ≥ 1 then
      let subcmd := pyLower (rest.headD [])
      if dangerousGitSubcommands.contains subcmd then
        let hasForce := (rest.drop 1).any
          (fun t => charsInfix "force".toList (pyLower t) ∨ t = "-f".toList ∨ t = "-D".toList)
        if hasForce then .dangerous else .warn
      else .safe
    else if safeCommands.contains baseCmd then .safe
    else .warn

/-- Tokenisation of a shell command.  Models Python `shlex.split` restricted to
commands without quoting or escape characters (all inputs considered in the
claims are of this form), where it coincides with whitespace splitting. -/
def shlexTokens (command : List Char) : List (List Char) := pyWords command

/-- Fold over the token stream splitting at pipe/chain operators, aggregating
the per-sub-command risk with `maxRisk`.
Source: `backend/security/classifier.py`, `classify_terminal_command`
(the `for token in tokens` loop and the trailing flush). -/
def classifyChainTokens : List (List Char) → List (List Char) → RiskLevel → RiskLevel
  | [], cur, risk =>
    if cur.isEmpty then risk else maxRisk risk (classifySingleCommand cur)
  | t :: rest, cur, risk =>
    if t = "|".toList ∨ t = "||".toList ∨ t = "&&".toList ∨ t = ";".toList then
      if cur.isEmpty then classifyChainTokens rest [] risk
      else classifyChainTokens rest [] (maxRisk risk (classifySingleCommand cur))
    else classifyChainTokens rest (cur ++ [t]) risk

/-- Blocked-pattern scan for fork bombs and Windows `format <letter>:`.
Source: `backend/security/classifier.py`, `BLOCKED_PATTERNS`.  The Python
`cmd.replace(" ", "")` is the space-removing filter. -/
def matchesBlockedPattern (command : List Char) : Bool :=
  charsInfix ":()\x7b".toList (command.filter (fun c => c ≠ ' '))
  ∨ ("format".toList.isPrefixOf (pyLower (pystripChars command)) ∧ command.contains ':')

/-- Classify a terminal command's risk level.
Source: `backend/security/classifier.py`, `classify_terminal_command`.
The `shlex.split` call is modelled by `shlexTokens`; the `ValueError` path for
malformed quoting is outside the modelled input class. -/
def classifyTerminalCommand (command : String) : RiskLevel :=
  let cmd := command.toList
  if (pystripChars cmd).isEmpty then .safe
  else if matchesBlockedPattern cmd then .blocked
  else
    let tokens := shlexTokens cmd
    if tokens.isEmpty then .safe
    else classifyChainTokens tokens [] .safe

example : classifyTerminalCommand "rm -rf /" = .dangerous := by decide
example : classifyTerminalCommand "mkfs.ext4 /dev/sda" = .blocked := by decide
example : classifyTerminalCommand "ls" = .safe := by decide
example : classifyTerminalCommand "git push --force" = .dangerous := by decide
example : classifyTerminalCommand "ls | rm -rf x" = .dangerous := by decide

/-- Modules whose import is flagged.
Source: `backend/security/classifier.py`, `DANGEROUS_MODULES`. -/
def dangerousModules : List (List Char) :=
  ["os", "subprocess", "shutil", "socket", "ctypes",
   "signal", "multiprocessing", "threading",
   "http.server", "xmlrpc", "ftplib", "smtplib", "telnetlib",
   "pickle", "shelve", "marshal"].map String.toList

/-- Function calls that are flagged.
Source: `backend/security/classifier.py`, `DANGEROUS_CALLS`. -/
def dangerousCalls : List (List Char) :=
  ["os.system", "os.popen", "os.exec", "os.execl", "os.execle",
   "os.execv", "os.execve", "os.execvp", "os.execvpe",
   "os.spawn", "os.spawnl", "os.spawnle", "os.spawnlp",
   "os.remove", "os.unlink", "os.rmdir", "os.removedirs",
   "subprocess.run", "subprocess.call", "subprocess.Popen",
   "subprocess.check_output", "subprocess.check_call",
   "shutil.rmtree", "shutil.move",
   "eval", "exec", "compile", "__import__"].map String.toList

/-- Sensitive file name patterns.
Source: `backend/security/classifier.py`, `SENSITIVE_FILE_PATTERNS`. -/
def sensitiveFilePatterns : List (List Char) :=
  [".env", ".env.local", ".env.production",
   "mcp_servers.json",
   ".key", ".pem", ".p12", ".pfx",
   "credentials", "secret", "token",
   "id_rsa", "id_ed25519"].map String.toList

/-- Check whether a file path matches sensitive patterns.
Source: `backend/security/classifier.py`, `_is_sensitive_file`.  The file name
component is the POSIX base name, lower-cased. -/
def isSensitiveFile (filepath : List Char) : Bool :=
  let name := pyLower (pathBaseName filepath)
  sensitiveFilePatterns.any (fun pat =>
    if ".".toList.isPrefixOf pat then
      name = pat ∨ pat.isSuffixOf name
    else
      charsInfix pat name)

/-- Abstract syntax node of a parsed Python program, as seen by `ast.walk`.
Nodes the classifier never inspects (`Module`, `Expr`, `Assign`, `Name`,
`Attribute`, `Constant`, `BinOp`, ...) are collapsed to `other`.  A `call`
node carries the dotted name recovered by `_get_call_name` and, when the
first positional argument is a string literal, that literal. -/
inductive PyNode where
  | imp (names : List (List Char))
  | impFrom (moduleName : Option (List Char))
  | call (name : List Char) (firstArgStrLit : Option (List Char))
  | other
deriving DecidableEq, Repr

/-- Root of a dotted module name: `alias.name.split(".")[0]`. -/
def moduleRoot (name : List Char) : List Char :=
  (splitOnChar '.' name).headD name

/-- Check a single AST node for dangerous patterns.
Source: `backend/security/classifier.py`, `_check_ast_node`. -/
def checkAstNode : PyNode → RiskLevel
  | .imp names =>
    if names.any (fun n => dangerousModules.contains (moduleRoot n)) then .dangerous
    else .safe
  | .impFrom m =>
    match m with
    | some name =>
      if dangerousModules.contains (moduleRoot name) then .dangerous else .safe
    | none => .safe
  | .call name firstArg =>
    if dangerousCalls.contains name then .dangerous
    else if name = "open".toList then
      match firstArg with
      | some path => if isSensitiveFile path then .dangerous else .safe
      | none => .safe
    else .safe
  | .other => .safe

/-- Walk the node list aggregating risk with `maxRisk`, stopping early at
`blocked`.  Source: `backend/security/classifier.py`, `classify_python_code`
(the `for node in ast.walk(tree)` loop). -/
def classifyPyNodes : List PyNode → RiskLevel → RiskLevel
  | [], risk => risk
  | n :: rest, risk =>
    let r := maxRisk risk (checkAstNode n)
    if r = .blocked then r else classifyPyNodes rest r

/-- Classify parsed Python code.
Source: `backend/security/classifier.py`, `classify_python_code`, for code
that is non-empty and parses (the `SyntaxError → warn` and empty-code paths
are not exercised by the claims, which supply well-formed programs). -/
def classifyPythonAst (nodes : List PyNode) : RiskLevel :=
  classifyPyNodes nodes .safe

/-- `ast.walk` node list of the program `import os; os.system('x')`:
Module, Import(os), Expr, Call(os.system, 'x'), Attribute, Name, Constant. -/
def astImportOsSystem : List PyNode :=
  [.other,
   .imp ["os".toList],
   .other,
   .call "os.system".toList (some "x".toList),
   .other, .other, .other]

/-- `ast.walk` node list of the program `x = 1 + 2`:
Module, Assign, Name, BinOp, Constant, Constant (plus context nodes). -/
def astAssignArith : List PyNode :=
  [.other, .other, .other, .other, .other, .other]

example : classifyPythonAst astImportOsSystem = .dangerous := by decide
example : classifyPythonAst astAssignArith = .safe := by decide

/-- IP address returned by `socket.getaddrinfo`: either a dotted IPv4 quad or
an IPv6 address given by its eight 16-bit hextets. -/
inductive IPAddr where
  | v4 (a b c d : Nat)
  | v6 (h0 h1 h2 h3 h4 h5 h6 h7 : Nat)
deriving DecidableEq, Repr

/-- Membership of an address in the fixed private-range set.
Source: `backend/security/classifier.py`, `PRIVATE_RANGES` (127.0.0.0/8,
10.0.0.0/8, 172.16.0.0/12, 192.168.0.0/16, 169.254.0.0/16, ::1/128,
fc00::/7, fe80::/10). -/
def inPrivateRanges : IPAddr → Bool
  | .v4 a b _ _ =>
    a = 127 ∨ a = 10 ∨ (a = 172 ∧ 16 ≤ b ∧ b ≤ 31) ∨ (a = 192 ∧ b = 168)
      ∨ (a = 169 ∧ b = 254)
  | .v6 h0 h1 h2 h3 h4 h5 h6 h7 =>
    (h0 = 0 ∧ h1 = 0 ∧ h2 = 0 ∧ h3 = 0 ∧ h4 = 0 ∧ h5 = 0 ∧ h6 = 0 ∧ h7 = 1)
      ∨ (0xfc00 ≤ h0 ∧ h0 ≤ 0xfdff)
      ∨ (0xfe80 ≤ h0 ∧ h0 ≤ 0xfebf)

/-- Result of `urllib.parse.urlparse` restricted to the fields the classifier
reads: `scheme`, `hostname` (`none` models a URL without a network location)
and `port`. -/
structure ParsedUrl where
  scheme : String
  hostname : Option String
  port : Option Nat
deriving DecidableEq, Repr

/-- DNS resolution environment: the addresses `socket.getaddrinfo` would
return for a hostname, or `none` when resolution raises. -/
def Resolver : Type := String → Option (List IPAddr)

/-- Classify URL risk for SSRF prevention.
Source: `backend/security/classifier.py`, `classify_url`, for a non-empty URL
that `urlparse` parses into `parsed`; DNS resolution is supplied by the
`resolve` environment. -/
def classifyUrl (parsed : ParsedUrl) (resolve : Resolver) : RiskLevel :=
  if parsed.scheme ≠ "http" ∧ parsed.scheme ≠ "https" then .blocked
  else
    match parsed.hostname with
    | none => .dangerous
    | some hostname =>
      if hostname = "" then .dangerous
      else if (hostname = "localhost" ∨ hostname = "127.0.0.1" ∨ hostname = "::1")
          ∧ parsed.port = some 8088 then .blocked
      else
        match resolve hostname with
        | none => .warn
        | some addrs =>
          if addrs.any inPrivateRanges then .dangerous else .safe

example :
    classifyUrl ⟨"http", some "internal.corp", none⟩
      (fun _ => some [.v4 10 0 0 1]) = .dangerous := by decide
example :
    classifyUrl ⟨"file", some "x", none⟩ (fun _ => none) = .blocked := by decide

/-- Python `str.startswith`, used by the tool wrapper on the denial reason. -/
def pyStartsWith (s pre : String) : Bool := pre.toList.isPrefixOf s.toList

/-- A pending approval request waiting for a user decision.  The
`asyncio.Event` of the source is implicit: setting `approved` corresponds to
resolving, and the suspended waiter reads it on wake-up.
Source: `backend/security/gate.py`, `@dataclass PendingApproval`
(`created_at`/`timeout` are not read by the modelled operations). -/
structure PendingApproval where
  toolName : String
  riskLevel : RiskLevel
  approved : Option Bool
deriving DecidableEq, Repr

/-- The gate's `_pending` dict, as an association list keyed by request id.
Reachable states hold each id at most once, exactly as a Python dict. -/
def GateState : Type := List (String × PendingApproval)

/-- `self._pending.get(request_id)`. -/
def lookupPending : GateState → String → Option PendingApproval
  | [], _ => none
  | e :: rest, rid => if e.1 = rid then some e.2 else lookupPending rest rid

/-- The mutation `pending.approved = approved` performed on the dict entry. -/
def setPendingApproved (st : GateState) (rid : String) (b : Bool) : GateState :=
  st.map (fun e => if e.1 = rid then (e.1, { e.2 with approved := some b }) else e)

/-- `self._pending.pop(request_id, None)` of `_cleanup_pending`; on a
unique-key state removing every binding of `rid` is the dict `pop`. -/
def cleanupPending : GateState → String → GateState
  | [], _ => []
  | e :: rest, rid =>
    if e.1 = rid then cleanupPending rest rid else e :: cleanupPending rest rid

/-- Resolve a pending approval request.
Source: `backend/security/gate.py`, `SecurityGate.resolve_approval`.  The
source signature takes exactly `(request_id, approved)`: there is no
`feedback` or `action` parameter.  Returns whether the request was found,
plus the updated state (`pending.approved = approved; pending.event.set()`;
the entry is NOT removed here). -/
def resolveApproval (st : GateState) (rid : String) (b : Bool) : Bool × GateState :=
  match lookupPending st rid with
  | none => (false, st)
  | some _ => (true, setPendingApproved st rid b)

/-- What the suspended `_request_approval` coroutine does when its event is
signalled: read `pending.approved`, `_cleanup_pending(request_id)`, and
return `(True, "user_approved")` or `(False, "User denied the operation")`.
Source: `backend/security/gate.py`, `_request_approval` (after the
`asyncio.wait_for` succeeds). -/
def approvalWaitResult (st : GateState) (rid : String) : (Bool × String) × GateState :=
  let approvedOpt := (lookupPending st rid).bind (fun p => p.approved)
  let cleaned := cleanupPending st rid
  match approvedOpt with
  | some true => ((true, "user_approved"), cleaned)
  | _ => ((false, "User denied the operation"), cleaned)

/-- The timeout branch of `_request_approval`: cleanup and auto-deny with the
interpolated timeout value. -/
def approvalTimeoutResult (timeoutStr : String) : Bool × String :=
  (false, "Approval timed out after " ++ timeoutStr ++ "s - auto-denied")

/-- The message a denied tool invocation returns to the calling LLM.
Source: `backend/security/tool_wrapper.py`, `secured_invoke` (the
`if not allowed` branch): an instruct-marked reason is surfaced as
`⚠️ 用户要求你重新考虑：<reason>`, anything else as
`⛔ Operation denied: <reason>`. -/
def securedDenyMessage (reason : String) : String :=
  if pyStartsWith reason "[用户指示]" then "⚠️ 用户要求你重新考虑：" ++ reason
  else "⛔ Operation denied: " ++ reason

/-- Modelled from the spec: valid memory categories.  `memory/models.py`
(`VALID_CATEGORIES`) is not under `src/`; the spec fixes
`category ∈ \x7bpreferences, facts, tasks, reflections, procedural, general\x7d`. -/
def validCategories : List String :=
  ["preferences", "facts", "tasks", "reflections", "procedural", "general"]

/-- Modelled from the spec: a long-term memory entry.  `memory/models.py`
(`class MemoryEntry`) is not under `src/`; the spec lists fields
`id, category, content, salience ∈ [0,1], created_at, last_accessed,
access_count, source, context?`.  Fields never read by the operations
modelled here (`created_at`, `access_count`, `context`) are omitted. -/
structure MemoryEntry where
  id : String
  category : String
  content : String
  salience : ℚ
  source : String
  lastAccessed : String
deriving DecidableEq, Repr

/-- Python `str.strip()` at the `String` level. -/
def pystrip (s : String) : String := (pystripChars s.toList).asString

/-- Jaccard similarity of the lower-cased word sets of two texts.
Source: `backend/memory/manager.py`, `_jaccard_similarity`. -/
def jaccardSimilarity (a b : String) : ℚ :=
  let wordsA := (pyWords (pyLower a.toList)).toFinset
  let wordsB := (pyWords (pyLower b.toList)).toFinset
  if wordsA.card = 0 ∨ wordsB.card = 0 then 0
  else if 0 < (wordsA ∪ wordsB).card then
    ((wordsA ∩ wordsB).card : ℚ) / ((wordsA ∪ wordsB).card : ℚ)
  else 0

/-- Category normalisation of `add_entry`: unknown categories collapse to
`general`.  Source: `backend/memory/manager.py`, `add_entry` lines 219-220. -/
def normalizeCategory (c : String) : String :=
  if validCategories.contains c then c else "general"

/-- Salience clamp `max(0.0, min(1.0, salience))`.
Source: `backend/memory/manager.py`, `add_entry` line 223 / `update_entry`. -/
def clampSalience (s : ℚ) : ℚ := max 0 (min 1 s)

/-- The per-entry duplicate test of `add_entry`: exact match of stripped
contents, or Jaccard similarity at least `DUPLICATE_SIMILARITY_THRESHOLD`
(0.7).  Source: `backend/memory/manager.py`, `add_entry` lines 234-240. -/
def dedupMatch (contentStripped : String) (m : MemoryEntry) : Bool :=
  let existing := pystrip m.content
  decide (existing = contentStripped)
    || decide ((7 : ℚ)/10 ≤ jaccardSimilarity existing contentStripped)

/-- Add a new memory entry, with duplicate detection unless `skipDedup`.
Source: `backend/memory/manager.py`, `MemoryManager.add_entry`.  `newId`
stands for `MemoryEntry.generate_id()` and `nowIso` for the creation
timestamp; returns the entry handed back to the caller and the new store. -/
def addEntry (store : List MemoryEntry) (content category : String)
    (salience : ℚ) (source : String) (skipDedup : Bool)
    (newId nowIso : String) : MemoryEntry × List MemoryEntry :=
  let cat := normalizeCategory category
  let sal := clampSalience salience
  let contentStripped := pystrip content
  match (if skipDedup then none else store.find? (dedupMatch contentStripped)) with
  | some m => (m, store)
  | none =>
    let e : MemoryEntry :=
      { id := newId, category := cat, content := contentStripped,
        salience := sal, source := source, lastAccessed := nowIso }
    (e, store ++ [e])

/-- Update the first entry with the given id, applying the optional new
content/category/salience and refreshing `last_accessed`.
Source: `backend/memory/manager.py`, `MemoryManager.update_entry`. -/
def updateEntry (store : List MemoryEntry) (entryId : String)
    (content : Option String) (category : Option String)
    (salience : Option ℚ) (nowIso : String) :
    Option MemoryEntry × List MemoryEntry :=
  match store with
  | [] => (none, [])
  | m :: rest =>
    if m.id = entryId then
      let m1 := match content with
        | some c => { m with content := pystrip c }
        | none => m
      let m2 := match category with
        | some c => if validCategories.contains c then { m1 with category := c } else m1
        | none => m1
      let m3 := match salience with
        | some s => { m2 with salience := clampSalience s }
        | none => m2
      let m4 := { m3 with lastAccessed := nowIso }
      (some m4, m4 :: rest)
    else
      let r := updateEntry rest entryId content category salience nowIso
      (r.1, m :: r.2)

/-- The `decision == "UPDATE" and target_id` branch of memory consolidation:
overwrite the target with `merged_content` (falling back to the candidate
content) and pass `salience = max(candidate_salience, 0.5)` to
`update_entry`; if the target is missing, fall back to an ADD with
`skip_dedup=True`.  Source: `backend/memory/consolidator.py`,
`consolidate_memory` lines 164-185. -/
def consolidateUpdateDecision (store : List MemoryEntry)
    (content category : String) (salience : ℚ) (source : String)
    (targetId : String) (mergedContent : Option String)
    (newId nowIso : String) : List MemoryEntry :=
  let finalContent := mergedContent.getD content
  let r := updateEntry store targetId (some finalContent) none
    (some (max salience (1/2))) nowIso
  match r.1 with
  | some _ => r.2
  | none => (addEntry store content category salience source true newId nowIso).2

/-- First-match association-list lookup (Python `dict.get` / file existence
check on a unique-key state). -/
def alistLookup {β : Type} : List (String × β) → String → Option β
  | [], _ => none
  | e :: rest, k => if e.1 = k then some e.2 else alistLookup rest k

/-- Replace the first binding of `k` or append a fresh one (Python
`dict.__setitem__` / overwriting a file at a path). -/
def alistSet {β : Type} : List (String × β) → String → β → List (String × β)
  | [], k, v => [(k, v)]
  | e :: rest, k, v =>
    if e.1 = k then (k, v) :: rest else e :: alistSet rest k v

/-- Remove every binding of `k`; on a unique-key state this is Python
`dict.pop` / `Path.unlink`. -/
def alistRemove {β : Type} : List (String × β) → String → List (String × β)
  | [], _ => []
  | e :: rest, k =>
    if e.1 = k then alistRemove rest k else e :: alistRemove rest k

/-- Remove only the first binding of `k` (used where the list order models
`OrderedDict` recency). -/
def alistEraseFirst {β : Type} : List (String × β) → String → List (String × β)
  | [], _ => []
  | e :: rest, k => if e.1 = k then rest else e :: alistEraseFirst rest k

/-- On-disk cache entry `\x7bkey, value, created_at, expire_at\x7d`; `accessedAt`
models the file access time maintained for LRU via `file_path.touch()`.
Source: `backend/cache/disk_cache.py`. -/
structure DiskEntry (α : Type) where
  value : α
  createdAt : ℚ
  expireAt : ℚ
  accessedAt : ℚ
deriving DecidableEq, Repr

/-- The disk cache directory: a map from key to stored entry. -/
def DiskState (α : Type) : Type := List (String × DiskEntry α)

/-- Retrieve a value from the disk cache at wall-clock time `now`; an expired
entry is deleted in place, a hit refreshes the file access time.
Source: `backend/cache/disk_cache.py`, `DiskCache.get`. -/
def diskGet {α : Type} (st : DiskState α) (k : String) (now : ℚ) :
    Option α × DiskState α :=
  match alistLookup st k with
  | none => (none, st)
  | some e =>
    if e.expireAt < now then (none, alistRemove st k)
    else (some e.value, alistSet st k { e with accessedAt := now })

/-- Store a value in the disk cache with the given TTL at time `now`.
Source: `backend/cache/disk_cache.py`, `DiskCache.set` (the entry written is
`\x7bkey, value, created_at: now, expire_at: now + ttl\x7d`). -/
def diskSet {α : Type} (st : DiskState α) (k : String) (v : α) (ttl now : ℚ) :
    DiskState α :=
  alistSet st k { value := v, createdAt := now, expireAt := now + ttl, accessedAt := now }

/-- In-memory cache entry.  Source: `backend/cache/memory_cache.py`,
`MemoryCache.set` (the `entry` dict). -/
structure CacheEntry (α : Type) where
  value : α
  createdAt : ℚ
  expireAt : ℚ
deriving DecidableEq, Repr

/-- The L1 LRU cache.  `entries` models the `OrderedDict`: the head is the
least recently used binding, the last element the most recently used.
Source: `backend/cache/memory_cache.py`, `class MemoryCache`. -/
structure MemCache (α : Type) where
  maxSize : Nat
  defaultTtl : ℚ
  entries : List (String × CacheEntry α)
deriving Repr

/-- A fresh `MemoryCache(max_size, default_ttl)`. -/
def mcEmpty (α : Type) (maxSize : Nat) (defaultTtl : ℚ) : MemCache α :=
  { maxSize := maxSize, defaultTtl := defaultTtl, entries := [] }

/-- L1 get at time `now`: a miss leaves the cache unchanged, an expired entry
is deleted, a hit moves the binding to the most-recently-used end.
Source: `backend/cache/memory_cache.py`, `MemoryCache.get`. -/
def mcGet {α : Type} (c : MemCache α) (k : String) (now : ℚ) :
    Option α × MemCache α :=
  match alistLookup c.entries k with
  | none => (none, c)
  | some e =>
    if e.expireAt < now then
      (none, { c with entries := alistEraseFirst c.entries k })
    else
      (some e.value, { c with entries := alistEraseFirst c.entries k ++ [(k, e)] })

/-- L1 set at time `now`: overwriting an existing key refreshes its recency;
a new key first evicts the head (`next(iter(self._cache))`, the least
recently used binding) when the cache is at capacity.  The empty-match arm is
unreachable for `maxSize ≥ 1` (in Python it would raise `StopIteration`).
Source: `backend/cache/memory_cache.py`, `MemoryCache.set`. -/
def mcSet {α : Type} (c : MemCache α) (k : String) (v : α) (ttl : Option ℚ)
    (now : ℚ) : MemCache α :=
  let t := ttl.getD c.defaultTtl
  let entry : CacheEntry α := { value := v, createdAt := now, expireAt := now + t }
  if (alistLookup c.entries k).isSome then
    { c with entries := alistEraseFirst c.entries k ++ [(k, entry)] }
  else
    let entries :=
      if c.maxSize ≤ c.entries.length then
        match c.entries with
        | [] => []
        | _ :: rest => rest
      else c.entries
    { c with entries := entries ++ [(k, entry)] }

/-- L1 delete.  Source: `backend/cache/memory_cache.py`,
`MemoryCache.delete`. -/
def mcDelete {α : Type} (c : MemCache α) (k : String) : MemCache α :=
  { c with entries := alistEraseFirst c.entries k }

/-- One externally invokable L1 cache operation. -/
inductive CacheOp (α : Type) where
  | getOp (k : String) (now : ℚ)
  | setOp (k : String) (v : α) (ttl : Option ℚ) (now : ℚ)
  | delOp (k : String)

/-- Apply one cache operation. -/
def mcStep {α : Type} (c : MemCache α) : CacheOp α → MemCache α
  | .getOp k now => (mcGet c k now).2
  | .setOp k v ttl now => mcSet c k v ttl now
  | .delOp k => mcDelete c k

/-- Run a sequence of cache operations. -/
def mcRun {α : Type} (c : MemCache α) (ops : List (CacheOp α)) : MemCache α :=
  ops.foldl mcStep c

/-- One message of the recent history as kept in the session store. -/
structure HistMsg where
  role : String
  content : String
deriving DecidableEq, Repr

/-- The inputs the runner collects for the LLM-reply cache key.
Source: `backend/engine/runner.py`, `_cached_run` (the `cache_key_params`
dict, lines 92-99). -/
structure LLMKeyParams where
  systemPrompt : String
  recentHistory : List (String × String)
  currentMessage : String
  model : String
  temperature : ℚ
  memoryFingerprint : String
deriving DecidableEq, Repr

/-- `session_history[-3:]` with each content truncated to 500 characters.
Source: `backend/engine/runner.py`, `_cached_run` lines 76-81. -/
def recentHistoryOf (history : List HistMsg) : List (String × String) :=
  (history.drop (history.length - 3)).map
    (fun m => (m.role, (m.content.toList.take 500).asString))

/-- Assemble the runner's cache-key parameters, including the memory
fingerprint (stringified mtime of `memory.json`).
Source: `backend/engine/runner.py`, `_cached_run` lines 83-99. -/
def runnerKeyParams (systemPrompt : String) (history : List HistMsg)
    (message model : String) (temperature : ℚ)
    (memoryFingerprint : String) : LLMKeyParams :=
  { systemPrompt := systemPrompt,
    recentHistory := recentHistoryOf history,
    currentMessage := message,
    model := model,
    temperature := temperature,
    memoryFingerprint := memoryFingerprint }

/-- The structure actually serialised and hashed for the LLM cache key.  The
cache key is `sha256(json.dumps(this, sort_keys=True))`, a deterministic
function of this value; `systemPromptHash` is the abstract
`sha256(system_prompt)[:16]`.
Source: `backend/cache/llm_cache.py`, `LLMCache._compute_cache_key`
(the `key_structure` dict, lines 64-70 — note it reads only five fields of
`key_params`). -/
structure LLMKeyStructure where
  systemPromptHash : String
  recentHistory : List (String × String)
  currentMessage : String
  model : String
  temperature : ℚ
deriving DecidableEq, Repr

/-- Build the hashed key structure from the key parameters; `sha16` models
`hashlib.sha256(·).hexdigest()[:16]` as an opaque deterministic function.
Source: `backend/cache/llm_cache.py`, `LLMCache._compute_cache_key`. -/
def llmKeyStructure (sha16 : String → String) (p : LLMKeyParams) : LLMKeyStructure :=
  { systemPromptHash := sha16 p.systemPrompt,
    recentHistory := p.recentHistory,
    currentMessage := p.currentMessage,
    model := p.model,
    temperature := p.temperature }

/-- The mtimes of the files consulted when building the system prompt.  The
five `Option` fields are the files the prompt cache fingerprints
(`workspace/SOUL.md`, `IDENTITY.md`, `USER.md`, `AGENTS.md` and
`memory/MEMORY.md`, each `none` when absent); `skillMtimes` are the
`SKILL.md` files feeding the skills snapshot and `memoryJsonMtime` is
`memory.json` feeding the memory section — both read by
`build_system_prompt` (`backend/prompt_builder.py`) but not fingerprinted. -/
structure WorkspaceState where
  soulMtime : Option ℚ
  identityMtime : Option ℚ
  userMtime : Option ℚ
  agentsMtime : Option ℚ
  memoryMdMtime : Option ℚ
  skillMtimes : List (String × ℚ)
  memoryJsonMtime : ℚ
deriving DecidableEq, Repr

/-- The `\x7bfile_path: mtime\x7d` dict the prompt cache key hashes: only the
four workspace files plus `memory/MEMORY.md` when it exists.  The cache key
is `sha256(json.dumps(this, sort_keys=True))`, a deterministic function of
this value.  Source: `backend/cache/prompt_cache.py`,
`_get_workspace_files_version` and `_compute_cache_key`. -/
def workspaceFilesVersion (w : WorkspaceState) : List (String × ℚ) :=
  ([("workspace/SOUL.md", w.soulMtime),
    ("workspace/IDENTITY.md", w.identityMtime),
    ("workspace/USER.md", w.userMtime),
    ("workspace/AGENTS.md", w.agentsMtime),
    ("memory/MEMORY.md", w.memoryMdMtime)].filterMap
    (fun pr => pr.2.map (fun t => (pr.1, t))))

/-- Stored prompt-cache content keyed by the fingerprint preimage: since the
SHA-256 key is a deterministic function of `workspaceFilesVersion`, a lookup
keyed by the preimage refines the real keyed lookup (equal preimages give
equal keys, hence a hit). -/
def promptCacheLookup (store : List (List (String × ℚ) × String))
    (w : WorkspaceState) : Option String :=
  match store.find? (fun e => e.1 = workspaceFilesVersion w) with
  | some e => some e.2
  | none => none

/-- Days elapsed since last access: `(now - last_accessed).days` clamped to
be non-negative, with timestamps in seconds.
Source: `backend/memory/search.py`, `compute_relevance` lines 64-65. -/
def daysOld (now lastAccessed : ℚ) : ℤ :=
  max 0 ⌊(now - lastAccessed) / 86400⌋

/-- Combined relevance `semantic_score × salience × exp(-λ × days_old)`.
Source: `backend/memory/search.py`, `compute_relevance` (decay-enabled
path); `lastAccessed`/`now` are the parsed timestamps in seconds. -/
noncomputable def computeRelevance (salience : ℚ) (lastAccessed : ℚ)
    (semanticScore : ℝ) (now : ℚ) (lam : ℝ) : ℝ :=
  semanticScore * (salience : ℝ) * Real.exp (-lam * ((daysOld now lastAccessed : ℤ) : ℝ))

/-- C2: the LLM-reply cache key ignores the memory fingerprint.  The hashed
`key_structure` built by `LLMCache._compute_cache_key` from the runner's
`cache_key_params` is identical for any two runs that differ only in the
mtime of `memory.json`, so the SHA-256 cache keys coincide — contradicting
the claim that the keys differ (and the runner's own intent of avoiding
stale-memory hits). -/
theorem llmCacheKeyIgnoresMemoryFingerprint
    (sha16 : String → String) (systemPrompt : String) (history : List HistMsg)
    (message model : String) (temperature : ℚ) (fp₁ fp₂ : String) :
    llmKeyStructure sha16
        (runnerKeyParams systemPrompt history message model temperature fp₁)
      = llmKeyStructure sha16
        (runnerKeyParams systemPrompt history message model temperature fp₂) := rfl

/-- The memory store of scenario S6: one `preferences` entry of salience 0.6. -/
def c3SeedStore : List MemoryEntry :=
  [{ id := "A", category := "preferences",
     content := "User prefers dark mode on the web UI", salience := 3/5,
     source := "user_explicit", lastAccessed := "2026-02-01T09:00:00" }]

/-- C3: executing an UPDATE consolidation decision on an entry of salience
0.6 with a candidate of salience 0.5 leaves the single entry with salience
0.5 — `consolidate_memory` passes `max(candidate_salience, 0.5)` to
`update_entry`, not `max(original_salience, 0.5)`, so the result is below
the claimed bound 0.6. -/
theorem consolidateUpdateSalienceDrop :
    consolidateUpdateDecision c3SeedStore "User likes dark theme" "preferences"
        (1/2) "session_reflection" "A" none "f00dcafe" "2026-02-02T09:00:00"
      = [{ id := "A", category := "preferences",
           content := "User likes dark theme", salience := 1/2,
           source := "user_explicit", lastAccessed := "2026-02-02T09:00:00" }]
    ∧ ¬ ((3/5 : ℚ) ≤ (1/2 : ℚ)) := by
  have hstr : pystrip "User likes dark theme" = "User likes dark theme" := by decide
  refine ⟨?_, by norm_num⟩
  simp [consolidateUpdateDecision, updateEntry, c3SeedStore, hstr]
  norm_num [clampSalience]

/-- The prompt-cache fingerprint exposes exactly the five tracked files. -/
lemma workspaceFilesVersion_lookup (w : WorkspaceState) :
    alistLookup (workspaceFilesVersion w) "workspace/SOUL.md" = w.soulMtime
    ∧ alistLookup (workspaceFilesVersion w) "workspace/IDENTITY.md" = w.identityMtime
    ∧ alistLookup (workspaceFilesVersion w) "workspace/USER.md" = w.userMtime
    ∧ alistLookup (workspaceFilesVersion w) "workspace/AGENTS.md" = w.agentsMtime
    ∧ alistLookup (workspaceFilesVersion w) "memory/MEMORY.md" = w.memoryMdMtime := by
  rcases w with ⟨so, idt, us, ag, md, sk, mj⟩
  cases so <;> cases idt <;> cases us <;> cases ag <;> cases md <;>
    simp [workspaceFilesVersion, alistLookup]

/-- A workspace where the four tracked files exist. -/
def c9State₁ : WorkspaceState :=
  { soulMtime := some 100, identityMtime := some 100, userMtime := some 100,
    agentsMtime := some 100, memoryMdMtime := none,
    skillMtimes := [("skills/demo/SKILL.md", 100)], memoryJsonMtime := 100 }

/-- The same workspace after a skill file and `memory.json` were touched. -/
def c9State₂ : WorkspaceState :=
  { c9State₁ with skillMtimes := [("skills/demo/SKILL.md", 999)], memoryJsonMtime := 999 }

/-- C9 counterexample: touching a skills snapshot file and `memory.json` —
both of which feed the system prompt — leaves the mtime fingerprint
unchanged, so the second `build()` hits the prompt cache and returns the
previously cached string instead of a fresh assembly. -/
theorem promptCacheStaleOnSkillEdit :
    workspaceFilesVersion c9State₁ = workspaceFilesVersion c9State₂
    ∧ c9State₁.skillMtimes ≠ c9State₂.skillMtimes
    ∧ c9State₁.memoryJsonMtime ≠ c9State₂.memoryJsonMtime
    ∧ promptCacheLookup [(workspaceFilesVersion c9State₁, "stale cached prompt")]
        c9State₂ = some "stale cached prompt" := by
  refine ⟨rfl, ?_, ?_, rfl⟩
  · simp [c9State₁, c9State₂]
  · simp [c9State₁, c9State₂]

/-- C9 (amended): the prompt-cache fingerprint preimage coincides for two
workspace states iff the five fingerprinted files (`SOUL.md`, `IDENTITY.md`,
`USER.md`, `AGENTS.md`, `memory/MEMORY.md`) have identical mtimes — so
changing any of those five changes the key input (a miss, modulo SHA-256
collisions), while changes to skills snapshot files or `memory.json` leave
the key unchanged. -/
theorem promptFingerprintCharacterization (w₁ w₂ : WorkspaceState) :
    workspaceFilesVersion w₁ = workspaceFilesVersion w₂
      ↔ (w₁.soulMtime = w₂.soulMtime ∧ w₁.identityMtime = w₂.identityMtime
         ∧ w₁.userMtime = w₂.userMtime ∧ w₁.agentsMtime = w₂.agentsMtime
         ∧ w₁.memoryMdMtime = w₂.memoryMdMtime) := by
  constructor
  · intro h
    obtain ⟨a₁, b₁, c₁, d₁, e₁⟩ := workspaceFilesVersion_lookup w₁
    obtain ⟨a₂, b₂, c₂, d₂, e₂⟩ := workspaceFilesVersion_lookup w₂
    exact ⟨by rw [← a₁, ← a₂, h], by rw [← b₁, ← b₂, h], by rw [← c₁, ← c₂, h],
      by rw [← d₁, ← d₂, h], by rw [← e₁, ← e₂, h]⟩
  · rintro ⟨h₁, h₂, h₃, h₄, h₅⟩
    unfold workspaceFilesVersion
    rw [h₁, h₂, h₃, h₄, h₅]

/-- C5 counterexample: an http URL whose host resolves to `10.0.0.1` is not
always classified `dangerous` — the self-reference check fires first, so
`http://localhost:8088/` with a resolver answering `10.0.0.1` is `blocked`. -/
theorem classifyUrlSelfReferenceBeatsPrivate :
    classifyUrl ⟨"http", some "localhost", some 8088⟩
        (fun _ => some [.v4 10 0 0 1]) = .blocked
    ∧ RiskLevel.blocked ≠ RiskLevel.dangerous := by decide

/-- C5 (amended): the classifier hard-block table holds as stated for shell
commands, Python code and `file:` URLs, and an http/https URL whose host
resolves to `10.0.0.1` is `dangerous` except in the self-reference case
(hostname `localhost`/`127.0.0.1`/`::1` with port 8088), which is `blocked`. -/
theorem classifierHardBlocks :
    classifyTerminalCommand "rm -rf /" = .dangerous
    ∧ classifyTerminalCommand "mkfs.ext4 /dev/sda" = .blocked
    ∧ classifyTerminalCommand "ls" = .safe
    ∧ classifyPythonAst astImportOsSystem = .dangerous
    ∧ classifyPythonAst astAssignArith = .safe
    ∧ (∀ (u : ParsedUrl) (resolve : Resolver) (host : String) (addrs : List IPAddr),
        (u.scheme = "http" ∨ u.scheme = "https") →
        u.hostname = some host → host ≠ "" →
        ¬ ((host = "localhost" ∨ host = "127.0.0.1" ∨ host = "::1")
            ∧ u.port = some 8088) →
        resolve host = some addrs → IPAddr.v4 10 0 0 1 ∈ addrs →
        classifyUrl u resolve = .dangerous)
    ∧ (∀ (u : ParsedUrl) (resolve : Resolver),
        u.scheme = "file" → classifyUrl u resolve = .blocked) := by
  refine ⟨by decide, by decide, by decide, by decide, by decide, ?_, ?_⟩
  · intro u resolve host addrs hscheme hhost hne hself hres hmem
    have hpriv : addrs.any inPrivateRanges = true :=
      List.any_eq_true.mpr ⟨_, hmem, by decide⟩
    rcases u with ⟨scheme, hostname, port⟩
    simp only at hhost
    subst hhost
    unfold classifyUrl
    rcases hscheme with h | h <;> subst h <;>
      simp [hne, hself, hres, hpriv]
  · intro u resolve h
    rcases u with ⟨scheme, hostname, port⟩
    simp only at h
    subst h
    simp [classifyUrl]

/-- Witness for `classifierHardBlocks`: the URL conjuncts applied at a
concrete host resolving to `10.0.0.1` and at a concrete `file:` URL. -/
theorem classifierHardBlocksWitness :
    classifyUrl ⟨"http", some "internal.host", none⟩
        (fun _ => some [.v4 10 0 0 1]) = .dangerous
    ∧ classifyUrl ⟨"file", some "etc", none⟩ (fun _ => none) = .blocked := by
  constructor
  · exact classifierHardBlocks.2.2.2.2.2.1
      ⟨"http", some "internal.host", none⟩ (fun _ => some [.v4 10 0 0 1])
      "internal.host" [.v4 10 0 0 1]
      (Or.inl rfl) rfl (by decide) (by decide) rfl (by decide)
  · exact classifierHardBlocks.2.2.2.2.2.2
      ⟨"file", some "etc", none⟩ (fun _ => none) rfl

/-- Resolving updates the stored decision of the targeted request. -/
lemma lookupPending_setPendingApproved_self (st : GateState) (rid : String)
    (b : Bool) (p : PendingApproval) (h : lookupPending st rid = some p) :
    lookupPending (setPendingApproved st rid b) rid
      = some { p with approved := some b } := by
  induction st with
  | nil => simp [lookupPending] at h
  | cons e rest ih =>
    by_cases he : e.1 = rid
    · simp [lookupPending, he] at h
      subst h
      simp [setPendingApproved, lookupPending, he]
    · simp [lookupPending, he] at h
      simpa [setPendingApproved, lookupPending, he] using ih h

/-- After cleanup the request id is gone from the pending map. -/
lemma lookupPending_cleanupPending_self (st : GateState) (rid : String) :
    lookupPending (cleanupPending st rid) rid = none := by
  induction st with
  | nil => rfl
  | cons e rest ih =>
    by_cases he : e.1 = rid <;> simp [cleanupPending, he, lookupPending, ih]

/-- A prefix test fails when the first characters differ. -/
lemma isPrefixOf_false_of_head_ne (a b : Char) (as bs : List Char)
    (h : ¬ a = b) : (a :: as).isPrefixOf (b :: bs) = false := by
  have : (a == b) = false := by
    simp [h]
  show (a == b && as.isPrefixOf bs) = false
  simp [this]

/-- The gate state of the counterexample/witness scenarios: one pending
dangerous terminal request. -/
def c4SeedGate : GateState :=
  [("ab12cd34", { toolName := "terminal", riskLevel := .dangerous, approved := none })]

/-- C4 counterexample: two back-to-back `resolve_approval` calls on a pending
request both return `True` — the entry is only removed when the suspended
waiter resumes — and the waiter then observes the SECOND call's decision
(denial), not the first call's approval. -/
theorem resolveApprovalDoubleResolve :
    (resolveApproval c4SeedGate "ab12cd34" true).1 = true
    ∧ (resolveApproval (resolveApproval c4SeedGate "ab12cd34" true).2
        "ab12cd34" false).1 = true
    ∧ (approvalWaitResult
        (resolveApproval (resolveApproval c4SeedGate "ab12cd34" true).2
          "ab12cd34" false).2 "ab12cd34").1
      = (false, "User denied the operation") := by decide

/-- C4 (amended): resolving a pending request returns `True` and stores the
decision; the suspended invocation, woken by that resolution, observes
exactly that decision and removes the request; any `resolve_approval` after
the waiter has resumed returns `False` and leaves the state unchanged.  (A
second resolve issued before the waiter resumes still returns `True` and
overwrites the decision — see the counterexample.) -/
theorem approvalResolveProtocol (st : GateState) (rid : String)
    (p : PendingApproval) (b c : Bool) (h : lookupPending st rid = some p) :
    (resolveApproval st rid b).1 = true
    ∧ (approvalWaitResult (resolveApproval st rid b).2 rid).1
        = (b, if b then "user_approved" else "User denied the operation")
    ∧ resolveApproval
        (approvalWaitResult (resolveApproval st rid b).2 rid).2 rid c
      = (false, (approvalWaitResult (resolveApproval st rid b).2 rid).2) := by
  have hres : resolveApproval st rid b = (true, setPendingApproved st rid b) := by
    simp [resolveApproval, h]
  have hset := lookupPending_setPendingApproved_self st rid b p h
  refine ⟨by simp [hres], ?_, ?_⟩
  · rw [hres]
    cases b <;> simp [approvalWaitResult, hset]
  · have hclean : (approvalWaitResult (resolveApproval st rid b).2 rid).2
        = cleanupPending (resolveApproval st rid b).2 rid := by
      unfold approvalWaitResult
      cases (lookupPending (resolveApproval st rid b).2 rid).bind
          (fun q => q.approved) with
      | none => rfl
      | some d => cases d <;> rfl
    rw [hclean]
    simp [resolveApproval, lookupPending_cleanupPending_self]

/-- Witness for `approvalResolveProtocol` at the concrete seeded gate. -/
theorem approvalResolveProtocolWitness :
    (resolveApproval c4SeedGate "ab12cd34" true).1 = true
    ∧ (approvalWaitResult (resolveApproval c4SeedGate "ab12cd34" true).2
        "ab12cd34").1 = (true, "user_approved")
    ∧ resolveApproval
        (approvalWaitResult (resolveApproval c4SeedGate "ab12cd34" true).2
          "ab12cd34").2 "ab12cd34" false
      = (false, (approvalWaitResult (resolveApproval c4SeedGate "ab12cd34" true).2
          "ab12cd34").2) := by
  have h := approvalResolveProtocol c4SeedGate "ab12cd34"
    { toolName := "terminal", riskLevel := .dangerous, approved := none }
    true false (by decide)
  exact ⟨h.1, by simpa using h.2.1, h.2.2⟩

/-- C1: the gate cannot produce an instruct outcome.  `resolve_approval`
accepts only `(request_id, approved)`, so whatever resolution is delivered,
the reason the suspended `_request_approval` returns is `user_approved` or
`User denied the operation` (or the timeout auto-denial) — never a string
starting with `[用户指示]` — and therefore the wrapped tool can never return
the claimed `⚠️ 用户要求你重新考虑：[用户指示] <feedback>` result. -/
theorem instructOutcomeUnreachable (st : GateState) (rid : String) (b : Bool)
    (ts : String) :
    ((approvalWaitResult (resolveApproval st rid b).2 rid).1.2 = "user_approved"
      ∨ (approvalWaitResult (resolveApproval st rid b).2 rid).1.2
          = "User denied the operation")
    ∧ pyStartsWith (approvalWaitResult (resolveApproval st rid b).2 rid).1.2
        "[用户指示]" = false
    ∧ pyStartsWith
        (securedDenyMessage (approvalWaitResult (resolveApproval st rid b).2 rid).1.2)
        "⚠️ 用户要求你重新考虑" = false
    ∧ pyStartsWith (approvalTimeoutResult ts).2 "[用户指示]" = false := by
  have key : (approvalWaitResult (resolveApproval st rid b).2 rid).1.2 = "user_approved"
      ∨ (approvalWaitResult (resolveApproval st rid b).2 rid).1.2
          = "User denied the operation" := by
    unfold resolveApproval
    cases h : lookupPending st rid with
    | none =>
      simp only [approvalWaitResult, h, Option.bind]
      trivial
    | some p =>
      have hset := lookupPending_setPendingApproved_self st rid b p h
      cases b
      · simp only [approvalWaitResult, hset, Option.bind]
        trivial
      · simp only [approvalWaitResult, hset, Option.bind]
        trivial
  have h4 : pyStartsWith (approvalTimeoutResult ts).2 "[用户指示]" = false := by
    unfold approvalTimeoutResult pyStartsWith
    have hdata : ("Approval timed out after " ++ ts ++ "s - auto-denied").toList
        = 'A' :: ("pproval timed out after ".toList
            ++ ts.toList ++ "s - auto-denied".toList) := by
      show (("Approval timed out after " ++ ts) ++ "s - auto-denied").data = _
      rw [String.data_append, String.data_append]
      rfl
    rw [hdata]
    exact isPrefixOf_false_of_head_ne '[' 'A' _ _ (by decide)
  rcases key with hk | hk <;>
    exact ⟨by rw [hk]; tauto, by rw [hk]; decide, by rw [hk]; decide, h4⟩

/-- Setting a key stores exactly the written entry under that key. -/
lemma alistLookup_alistSet_self {β : Type} (st : List (String × β)) (k : String)
    (v : β) : alistLookup (alistSet st k v) k = some v := by
  induction st with
  | nil => simp [alistSet, alistLookup]
  | cons e rest ih =>
    by_cases he : e.1 = k <;> simp [alistSet, alistLookup, he, ih]

/-- Removing a key leaves no binding for it. -/
lemma alistLookup_alistRemove_self {β : Type} (st : List (String × β))
    (k : String) : alistLookup (alistRemove st k) k = none := by
  induction st with
  | nil => rfl
  | cons e rest ih =>
    by_cases he : e.1 = k <;> simp [alistRemove, alistLookup, he, ih]

/-- C7: the disk-cache round trip.  After `set(k, v, ttl)` at time `s`, a
`get(k)` at time `g ≤ s + ttl` returns `v`; a `get(k)` at time `g > s + ttl`
returns nothing and deletes the stored disk entry for `k`. -/
theorem diskCacheRoundTrip {α : Type} (st : DiskState α) (k : String) (v : α)
    (ttl s g : ℚ) :
    (g ≤ s + ttl → (diskGet (diskSet st k v ttl s) k g).1 = some v)
    ∧ (s + ttl < g →
        (diskGet (diskSet st k v ttl s) k g).1 = none
        ∧ alistLookup (diskGet (diskSet st k v ttl s) k g).2 k = none) := by
  have hl : alistLookup (diskSet st k v ttl s) k
      = some { value := v, createdAt := s, expireAt := s + ttl, accessedAt := s } :=
    alistLookup_alistSet_self st k _
  constructor
  · intro hg
    have hnot : ¬ ((s + ttl : ℚ) < g) := not_lt.mpr hg
    simp [diskGet, hl, hnot]
  · intro hg
    simp [diskGet, hl, hg, alistLookup_alistRemove_self]

/-- Witness for `diskCacheRoundTrip`: a concrete entry with TTL 10 set at
time 0 hits at time 5 and is gone at time 11. -/
theorem diskCacheRoundTripWitness :
    (diskGet (diskSet ([] : DiskState String) "k1" "v1" 10 0) "k1" 5).1 = some "v1"
    ∧ (diskGet (diskSet ([] : DiskState String) "k1" "v1" 10 0) "k1" 11).1 = none := by
  constructor
  · exact (@diskCacheRoundTrip String [] "k1" "v1" 10 0 5).1 (by norm_num)
  · exact ((@diskCacheRoundTrip String [] "k1" "v1" 10 0 11).2 (by norm_num)).1

/-- C8: decay monotonicity of the relevance score.  With equal salience and
semantic score (both non-negative) and a non-negative decay constant, the
entry with the more recent `last_accessed` receives a relevance at least as
large as the other's, so it ranks no lower. -/
theorem decayMonotoneRelevance (sal la₁ la₂ : ℚ) (score : ℝ) (now : ℚ)
    (lam : ℝ) (hscore : 0 ≤ score) (hsal : 0 ≤ sal) (hlam : 0 ≤ lam)
    (hla : la₂ ≤ la₁) :
    computeRelevance sal la₂ score now lam
      ≤ computeRelevance sal la₁ score now lam := by
  unfold computeRelevance
  have hdays : daysOld now la₁ ≤ daysOld now la₂ := by
    unfold daysOld
    apply max_le_max le_rfl
    apply Int.floor_le_floor
    have hsub : now - la₁ ≤ now - la₂ := sub_le_sub_left hla now
    exact (div_le_div_iff_of_pos_right (by norm_num)).mpr hsub
  have hcast : ((daysOld now la₁ : ℤ) : ℝ) ≤ ((daysOld now la₂ : ℤ) : ℝ) := by
    exact_mod_cast hdays
  have hmul : -lam * ((daysOld now la₂ : ℤ) : ℝ)
      ≤ -lam * ((daysOld now la₁ : ℤ) : ℝ) :=
    mul_le_mul_of_nonpos_left hcast (neg_nonpos.mpr hlam)
  have hbase : (0 : ℝ) ≤ score * (sal : ℝ) :=
    mul_nonneg hscore (by exact_mod_cast hsal)
  exact mul_le_mul_of_nonneg_left (Real.exp_le_exp.mpr hmul) hbase

/-- Witness for `decayMonotoneRelevance` at concrete timestamps one and two
days in the past. -/
theorem decayMonotoneRelevanceWitness :
    (0 : ℝ) ≤ 4/5 ∧ (0 : ℚ) ≤ 1/2 ∧ (0 : ℝ) ≤ 1/10 ∧ (100000 : ℚ) ≤ 200000
    ∧ computeRelevance (1/2) 100000 (4/5) 300000 (1/10)
        ≤ computeRelevance (1/2) 200000 (4/5) 300000 (1/10) :=
  ⟨by norm_num, by norm_num, by norm_num, by norm_num,
   decayMonotoneRelevance (1/2) 200000 100000 (4/5) 300000 (1/10)
     (by norm_num) (by norm_num) (by norm_num) (by norm_num)⟩

/-- Erasing a binding never grows the list. -/
lemma alistEraseFirst_length_le {β : Type} (l : List (String × β)) (k : String) :
    (alistEraseFirst l k).length ≤ l.length := by
  induction l with
  | nil => simp [alistEraseFirst]
  | cons e rest ih =>
    by_cases he : e.1 = k
    · simp [alistEraseFirst, he]
    · simp [alistEraseFirst, he]
      omega

/-- Erasing a present binding shrinks the list by exactly one. -/
lemma length_alistEraseFirst_of_lookup {β : Type} (l : List (String × β))
    (k : String) (e : β) (h : alistLookup l k = some e) :
    l.length = (alistEraseFirst l k).length + 1 := by
  induction l with
  | nil => simp [alistLookup] at h
  | cons x rest ih =>
    by_cases hx : x.1 = k
    · simp [alistEraseFirst, hx]
    · simp [alistLookup, hx] at h
      simp [alistEraseFirst, hx]
      exact ih h

/-- Cache operations preserve the configured capacity. -/
lemma mcStep_maxSize {α : Type} (c : MemCache α) (op : CacheOp α) :
    (mcStep c op).maxSize = c.maxSize := by
  cases op with
  | getOp k now =>
    simp only [mcStep, mcGet]
    cases alistLookup c.entries k with
    | none => rfl
    | some e => by_cases hex : e.expireAt < now <;> simp [hex]
  | setOp k v ttl now =>
    simp only [mcStep, mcSet]
    by_cases hk : (alistLookup c.entries k).isSome <;> simp [hk]
  | delOp k => rfl

/-- One cache operation keeps the entry count within capacity. -/
lemma mcStep_length {α : Type} (c : MemCache α) (op : CacheOp α)
    (hinv : c.entries.length ≤ c.maxSize) (hpos : 1 ≤ c.maxSize) :
    (mcStep c op).entries.length ≤ c.maxSize := by
  cases op with
  | getOp k now =>
    simp only [mcStep, mcGet]
    cases h : alistLookup c.entries k with
    | none => simpa using hinv
    | some e =>
      have hlen := length_alistEraseFirst_of_lookup c.entries k e h
      by_cases hex : e.expireAt < now
      · simp only [hex, if_true]
        exact le_trans (alistEraseFirst_length_le _ _) hinv
      · simp only [hex, if_false]
        simp only [List.length_append, List.length_cons, List.length_nil]
        omega
  | setOp k v ttl now =>
    simp only [mcStep, mcSet]
    by_cases hk : (alistLookup c.entries k).isSome = true
    · obtain ⟨e, he⟩ := Option.isSome_iff_exists.mp hk
      have hlen := length_alistEraseFirst_of_lookup c.entries k e he
      rw [if_pos hk]
      simp only [List.length_append, List.length_cons, List.length_nil]
      omega
    · rw [if_neg hk]
      by_cases hcap : c.maxSize ≤ c.entries.length
      · rw [if_pos hcap]
        cases hm : c.entries with
        | nil =>
          rw [hm] at hcap
          simp at hcap
          omega
        | cons x rest =>
          show (rest ++ [(k, (⟨v, now, now + ttl.getD c.defaultTtl⟩ : CacheEntry α))]).length ≤ c.maxSize
          rw [hm] at hinv
          simp only [List.length_append, List.length_cons, List.length_nil]
          simp only [List.length_cons] at hinv
          omega
      · rw [if_neg hcap]
        simp only [List.length_append, List.length_cons, List.length_nil]
        omega
  | delOp k =>
    simp only [mcStep, mcDelete]
    exact le_trans (alistEraseFirst_length_le _ _) hinv

/-- Running a sequence of operations keeps the cache within its capacity. -/
lemma mcRun_length {α : Type} (ops : List (CacheOp α)) :
    ∀ c : MemCache α, c.entries.length ≤ c.maxSize → 1 ≤ c.maxSize →
      (mcRun c ops).entries.length ≤ c.maxSize := by
  induction ops with
  | nil => intro c h _; simpa [mcRun] using h
  | cons op rest ih =>
    intro c hinv hpos
    have hstep := mcStep_length c op hinv hpos
    have hmax := mcStep_maxSize c op
    have := ih (mcStep c op) (by rw [hmax]; exact hstep) (by rw [hmax]; exact hpos)
    rw [hmax] at this
    simpa [mcRun] using this

/-- C10: the L1 LRU cache never exceeds its capacity `N ≥ 1` across any
sequence of get/set/delete operations started from the fresh cache; a set of
a new key while at capacity first evicts the least-recently-used entry (the
head of the recency order); and a live hit moves the accessed binding to the
most-recently-used end. -/
theorem memCacheLRUInvariant (α : Type) (N : Nat) (ttl : ℚ) (hN : 1 ≤ N) :
    (∀ ops : List (CacheOp α), (mcRun (mcEmpty α N ttl) ops).entries.length ≤ N)
    ∧ (∀ (c : MemCache α) (k : String) (v : α) (t : Option ℚ) (now : ℚ),
        c.maxSize = N → c.entries.length = N → alistLookup c.entries k = none →
        (mcSet c k v t now).entries
          = c.entries.tail ++ [(k, ⟨v, now, now + t.getD c.defaultTtl⟩)])
    ∧ (∀ (c : MemCache α) (k : String) (e : CacheEntry α) (now : ℚ),
        alistLookup c.entries k = some e → ¬ e.expireAt < now →
        (mcGet c k now).2.entries = alistEraseFirst c.entries k ++ [(k, e)]) := by
  refine ⟨?_, ?_, ?_⟩
  · intro ops
    exact mcRun_length ops (mcEmpty α N ttl) (by simp [mcEmpty]) (by simpa [mcEmpty])
  · intro c k v t now hmax hfull hmiss
    have hcap : c.maxSize ≤ c.entries.length := by rw [hmax, hfull]
    cases hm : c.entries with
    | nil =>
      rw [hm] at hfull
      simp at hfull
      omega
    | cons x rest =>
      simp only [mcSet, hmiss, Option.isSome_none, Bool.false_eq_true, if_false]
      rw [if_pos hcap, hm]
      rfl
  · intro c k e now hhit hlive
    simp [mcGet, hhit, hlive]

/-- Witness for `memCacheLRUInvariant`: a capacity-2 cache stays within
bounds over a concrete operation sequence that overflows it. -/
theorem memCacheLRUInvariantWitness :
    1 ≤ 2 ∧ (mcRun (mcEmpty String 2 60)
      [CacheOp.setOp "a" "1" none 0, CacheOp.setOp "b" "2" none 1,
       CacheOp.setOp "c" "3" none 2, CacheOp.getOp "b" 3,
       CacheOp.delOp "a"]).entries.length ≤ 2 :=
  ⟨by norm_num, (memCacheLRUInvariant String 2 60 (by norm_num)).1 _⟩

/-- Dropping a prefix that satisfies the predicate is idempotent. -/
lemma dropWhile_idem {γ : Type} (q : γ → Bool) (l : List γ) :
    (l.dropWhile q).dropWhile q = l.dropWhile q := by
  induction l with
  | nil => rfl
  | cons a t ih =>
    by_cases h : q a
    · simp [List.dropWhile_cons, h, ih]
    · simp [List.dropWhile_cons, h]

/-- A prefix of a dropWhile-stable list is itself dropWhile-stable. -/
lemma dropWhile_eq_self_of_prefix {γ : Type} (q : γ → Bool) (X Y : List γ)
    (hX : X.dropWhile q = X) (hY : Y <+: X) : Y.dropWhile q = Y := by
  cases Y with
  | nil => rfl
  | cons a t =>
    obtain ⟨s, hs⟩ := hY
    have ha : ¬ q a = true := by
      intro hq
      have hX' : X.dropWhile q = (t ++ s).dropWhile q := by
        rw [← hs]
        simp [List.dropWhile_cons, hq]
      have hlen := congrArg List.length (hX.symm.trans hX')
      have hle : ((t ++ s).dropWhile q).length ≤ (t ++ s).length :=
        (List.dropWhile_suffix q).length_le
      rw [← hs] at hlen
      simp only [List.length_append, List.length_cons] at hlen hle
      omega
    simp [List.dropWhile_cons, ha]

/-- `backStrip` only removes characters from the end. -/
lemma backStrip_prefix_self (l : List Char) : backStrip l <+: l := by
  unfold backStrip
  have h : l.reverse.dropWhile Char.isWhitespace <:+ l.reverse :=
    List.dropWhile_suffix _
  have h2 := List.reverse_prefix.mpr h
  rwa [List.reverse_reverse] at h2

/-- Back-stripping is idempotent. -/
lemma backStrip_idem (l : List Char) : backStrip (backStrip l) = backStrip l := by
  unfold backStrip
  rw [List.reverse_reverse, dropWhile_idem]

/-- Python `strip` is idempotent at the character-list level. -/
lemma pystripChars_idem (l : List Char) :
    pystripChars (pystripChars l) = pystripChars l := by
  unfold pystripChars
  have h1 : (frontStrip l).dropWhile Char.isWhitespace = frontStrip l :=
    dropWhile_idem _ l
  have h2 : frontStrip (backStrip (frontStrip l)) = backStrip (frontStrip l) :=
    dropWhile_eq_self_of_prefix _ _ _ h1 (backStrip_prefix_self _)
  rw [h2, backStrip_idem]

/-- Python `strip` is idempotent. -/
lemma pystrip_idem (s : String) : pystrip (pystrip s) = pystrip s := by
  unfold pystrip
  rw [List.toList_asString, pystripChars_idem]

/-- A failing search over the first list skips it. -/
lemma find?_append_none {γ : Type} (p : γ → Bool) (l₁ l₂ : List γ)
    (h : l₁.find? p = none) : (l₁ ++ l₂).find? p = l₂.find? p := by
  induction l₁ with
  | nil => rfl
  | cons a t ih =>
    cases hp : p a with
    | true => simp [List.find?_cons, hp] at h
    | false =>
      simp only [List.find?_cons, hp] at h
      simpa [List.find?_cons, hp] using ih h

/-- The freshly inserted entry matches its own content. -/
lemma dedupMatch_self_insert (content : String) (e : MemoryEntry)
    (he : e.content = pystrip content) :
    dedupMatch (pystrip content) e = true := by
  simp [dedupMatch, he, pystrip_idem]

/-- The entry `add_entry` constructs on the insert path (proof abbreviation,
definitionally equal to the record built inside `addEntry`). -/
def mkAddedEntry (category content : String) (sal : ℚ)
    (src newId now : String) : MemoryEntry :=
  { id := newId, category := normalizeCategory category,
    content := pystrip content, salience := clampSalience sal,
    source := src, lastAccessed := now }

/-- C6: `add_entry` duplicate suppression.  With `skip_dedup` false, if some
stored entry matches the incoming content (exact stripped equality or word
Jaccard ≥ 0.7), the store is unchanged and a matching existing entry is
returned; consequently adding the same content twice inserts at most one
entry, the second call returns the first call's id, and leaves the store of
the first call untouched. -/
theorem addEntryDedup :
    (∀ (store : List MemoryEntry) (content category : String) (sal : ℚ)
       (src newId now : String),
       (∃ m ∈ store, dedupMatch (pystrip content) m = true) →
       (addEntry store content category sal src false newId now).2 = store
       ∧ ∃ m ∈ store,
           (addEntry store content category sal src false newId now).1 = m
           ∧ dedupMatch (pystrip content) m = true)
    ∧ (∀ (store : List MemoryEntry) (content c₁ c₂ : String) (s₁ s₂ : ℚ)
         (src₁ src₂ newId₁ newId₂ t₁ t₂ : String),
        ((addEntry (addEntry store content c₁ s₁ src₁ false newId₁ t₁).2
            content c₂ s₂ src₂ false newId₂ t₂).1).id
          = ((addEntry store content c₁ s₁ src₁ false newId₁ t₁).1).id
        ∧ (addEntry (addEntry store content c₁ s₁ src₁ false newId₁ t₁).2
            content c₂ s₂ src₂ false newId₂ t₂).2
          = (addEntry store content c₁ s₁ src₁ false newId₁ t₁).2
        ∧ (addEntry store content c₁ s₁ src₁ false newId₁ t₁).2.length
            ≤ store.length + 1) := by
  constructor
  · intro store content category sal src newId now hex
    have hsome : (store.find? (dedupMatch (pystrip content))).isSome :=
      List.find?_isSome.mpr hex
    obtain ⟨m, hm⟩ := Option.isSome_iff_exists.mp hsome
    refine ⟨by simp [addEntry, hm], m, List.mem_of_find?_eq_some hm, ?_, ?_⟩
    · simp [addEntry, hm]
    · exact List.find?_some hm
  · intro store content c₁ c₂ s₁ s₂ src₁ src₂ newId₁ newId₂ t₁ t₂
    cases hF : store.find? (dedupMatch (pystrip content)) with
    | some m =>
      simp [addEntry, hF]
    | none =>
      have hfirst : addEntry store content c₁ s₁ src₁ false newId₁ t₁
          = (mkAddedEntry c₁ content s₁ src₁ newId₁ t₁,
             store ++ [mkAddedEntry c₁ content s₁ src₁ newId₁ t₁]) := by
        simp [addEntry, hF, mkAddedEntry]
      have hmatch : dedupMatch (pystrip content)
          (mkAddedEntry c₁ content s₁ src₁ newId₁ t₁) = true :=
        dedupMatch_self_insert content _ rfl
      have hsecond : (store ++ [mkAddedEntry c₁ content s₁ src₁ newId₁ t₁]).find?
            (dedupMatch (pystrip content))
          = some (mkAddedEntry c₁ content s₁ src₁ newId₁ t₁) := by
        rw [find?_append_none _ _ _ hF]
        simp [List.find?_cons, hmatch]
      rw [hfirst]
      refine ⟨?_, ?_, by simp⟩
      · simp [addEntry, hsecond]
      · simp [addEntry, hsecond]

/-- A store already holding the content used by the C6 witness. -/
def c6SeedStore : List MemoryEntry :=
  [{ id := "seed0001", category := "preferences", content := "User prefers tea",
     salience := 1/2, source := "user_explicit", lastAccessed := "t0" }]

/-- Witness for `addEntryDedup`: a duplicate add on a seeded store leaves it
unchanged, and adding the same content twice to an empty store stores one
entry and returns the same id both times. -/
theorem addEntryDedupWitness :
    ((addEntry c6SeedStore "User prefers tea" "preferences" (1/2)
        "user_explicit" false "cccc3333" "t3").2 = c6SeedStore)
    ∧ ((addEntry (addEntry ([] : List MemoryEntry) "User prefers tea"
          "preferences" (1/2) "user_explicit" false "aaaa1111" "t1").2
          "User prefers tea" "preferences" (1/2) "user_explicit" false
          "bbbb2222" "t2").1).id
        = ((addEntry ([] : List MemoryEntry) "User prefers tea" "preferences"
            (1/2) "user_explicit" false "aaaa1111" "t1").1).id
    ∧ (addEntry (addEntry ([] : List MemoryEntry) "User prefers tea"
          "preferences" (1/2) "user_explicit" false "aaaa1111" "t1").2
          "User prefers tea" "preferences" (1/2) "user_explicit" false
          "bbbb2222" "t2").2
        = (addEntry ([] : List MemoryEntry) "User prefers tea" "preferences"
            (1/2) "user_explicit" false "aaaa1111" "t1").2 := by
  have ha := (addEntryDedup.1 c6SeedStore "User prefers tea" "preferences"
    (1/2) "user_explicit" "cccc3333" "t3" (by decide)).1
  have hb := addEntryDedup.2 [] "User prefers tea" "preferences" "preferences"
    (1/2) (1/2) "user_explicit" "user_explicit" "aaaa1111" "bbbb2222" "t1" "t2"
  exact ⟨ha, hb.1, hb.2.1⟩

end VibeWorker
